import Mathlib

/-!
Verification of the ppt_generator server (src/ppt_generator_server.py)
against its natural-language specification.

The server is a Flask app with one builder class, `PresentationBuilder`.
We give a shallow embedding: slides, shapes and text frames become plain
Lean structures, the builder methods become pure functions on a `Builder`
state, and the HTTP handler becomes a function from the two optional file
parts to a response value.  Python strings are modelled as Lean `String`
(lists of unicode code points, matching Python indexing and slicing).
-/

namespace PptGen

/-- Whitespace characters removed by the Python str.strip calls in the
server (ASCII space, tab, newline, carriage return, vertical tab, form
feed). -/
def isPySpace (c : Char) : Bool :=
  c = ' ' || c = '\t' || c = '\n' || c = '\r' || c.toNat = 11 || c.toNat = 12

/-- Removal of trailing whitespace from a list of characters. -/
def stripRight (l : List Char) : List Char :=
  (l.reverse.dropWhile isPySpace).reverse

/-- Model of Python str.strip on a list of characters: drop leading and
trailing whitespace. -/
def pyStripL (l : List Char) : List Char :=
  stripRight (l.dropWhile isPySpace)

/-- Model of Python str.strip on strings. -/
def pyStrip (s : String) : String :=
  String.mk (pyStripL s.data)

/-- Model of Python str.split with the newline character as separator:
splitting an empty string gives one empty field, and every newline
character starts a new field. -/
def linesOf : List Char → List (List Char)
  | [] => [[]]
  | c :: rest =>
    if c = '\n' then [] :: linesOf rest
    else
      match linesOf rest with
      | [] => [[c]]
      | l :: ls => (c :: l) :: ls

/-- Model of a paragraph of a text frame: its text, its font size in
points, and its outline level (lines 57-60 of the source set all three). -/
structure Paragraph where
  text : String
  fontSizePt : Nat
  level : Nat
deriving DecidableEq

/-- Model of a pptx shape as far as the server inspects or mutates it:
whether it is a group shape, whether it is a placeholder, its
placeholder_format.idx, the text of its text frame, and the paragraphs of
its text frame. -/
structure Shape where
  isGroup : Bool
  isPlaceholder : Bool
  phIdx : Nat
  text : String
  paragraphs : List Paragraph
deriving DecidableEq

/-- Model of a slide layout: an identity and the placeholder shapes that
pptx clones onto every slide created from the layout. -/
structure Layout where
  id : Nat
  placeholders : List Shape
deriving DecidableEq

/-- Model of a slide: the layout it was created from and its shapes in
shape-tree order. -/
structure Slide where
  layout : Layout
  shapes : List Shape
deriving DecidableEq

/-- Model of the PresentationBuilder state: the recorded base slide
(slides[0] of the template) and the list of slides of the presentation. -/
structure Builder where
  baseSlide : Slide
  slides : List Slide
deriving DecidableEq

/-- Model of PresentationBuilder.__init__ (lines 14-18): record slide 0 of
the template as the base slide; an empty template raises an unhandled
IndexError, modelled as none. -/
def initBuilder : List Slide → Option Builder
  | [] => none
  | s :: rest => some { baseSlide := s, slides := s :: rest }

/-- Loop body of duplicate_base_slide (lines 24-31): walk the shapes of
the base slide; a group shape is skipped and a warning is recorded; a
placeholder is skipped silently; any other shape is deep-copied (in a pure
model the copy is the shape itself).  Returns the copied shapes in order
together with the warnings. -/
def copyLoop : List Shape → List Shape × List String
  | [] => ([], [])
  | s :: rest =>
    if s.isGroup then
      let r := copyLoop rest
      (r.1, "[WARN] Skipping grouped shape" :: r.2)
    else if s.isPlaceholder then copyLoop rest
    else
      let r := copyLoop rest
      (s :: r.1, r.2)

/-- Model of duplicate_base_slide (lines 20-33): add a slide using the
layout of the base slide (pptx clones the layout placeholders onto it),
then insert the copied shapes of the base slide at the end of the shape
tree.  Returns the new slide and the logged warnings. -/
def duplicate_base_slide (base : Slide) : Slide × List String :=
  let r := copyLoop base.shapes
  ({ layout := base.layout, shapes := base.layout.placeholders ++ r.1 }, r.2)

/-- Line 48 of the source: the title is kept when its length is below 200
and otherwise replaced by its first 197 characters followed by an
ellipsis. -/
def truncated_title (title : String) : String :=
  if title.length < 200 then title else String.mk (title.data.take 197) ++ "..."

/-- One pass of the body loop (lines 53-60) on one field of the split:
strip the line; a blank line yields no paragraph, any other line yields a
paragraph with the stripped text, font size 18 and level 0. -/
def cleanPar (ln : List Char) : Option Paragraph :=
  let c := pyStripL ln
  if c.isEmpty then none else some { text := String.mk c, fontSizePt := 18, level := 0 }

/-- Lines 52-60 of the source: the paragraphs appended to the cleared body
text frame, obtained by stripping the whole content, splitting on
newlines, and keeping one paragraph per non-blank field. -/
def bodyParagraphs (content : String) : List Paragraph :=
  (linesOf (pyStripL content.data)).filterMap cleanPar

/-- Wording of the specification for the body: one paragraph per non-blank
line of the content itself (no strip of the whole content first).  Used to
compare the code against the spec sentence. -/
def bodyParagraphsSpec (content : String) : List Paragraph :=
  (linesOf content.data).filterMap cleanPar

/-- Index of the last shape of the list satisfying the test.  The scan
loop of add_content_slide (lines 40-46) overwrites its variables on every
match, so the binding left after the loop is the last matching shape. -/
def lastIdxWhere (p : Shape → Bool) : List Shape → Option Nat
  | [] => none
  | s :: rest =>
    match lastIdxWhere p rest with
    | some i => some (i + 1)
    | none => if p s then some 0 else none

/-- Test selecting the title placeholder (line 43): a placeholder with
placeholder_format.idx equal to 0. -/
def isTitlePh (s : Shape) : Bool :=
  s.isPlaceholder && s.phIdx == 0

/-- Test selecting the content placeholder (line 45): a placeholder with
any other placeholder_format.idx. -/
def isContentPh (s : Shape) : Bool :=
  s.isPlaceholder && !(s.phIdx == 0)

/-- Replacement of the shape at one position of a list. -/
def modifyIdx (f : Shape → Shape) : Nat → List Shape → List Shape
  | _, [] => []
  | 0, s :: rest => f s :: rest
  | n + 1, s :: rest => s :: modifyIdx f n rest

/-- Lines 47-49 of add_content_slide: when a title placeholder was found
by the scan of the original shape list, set the (possibly truncated) title
text on it; otherwise leave the shapes alone. -/
def setTitleStage (title : String) (shapes0 shapes : List Shape) : List Shape :=
  match lastIdxWhere isTitlePh shapes0 with
  | some i => modifyIdx (fun s => { s with text := truncated_title title }) i shapes
  | none => shapes

/-- Lines 50-60 of add_content_slide: when a content placeholder was found
by the scan of the original shape list, clear its text frame and install
the body paragraphs; otherwise leave the shapes alone. -/
def setBodyStage (content : String) (shapes0 shapes : List Shape) : List Shape :=
  match lastIdxWhere isContentPh shapes0 with
  | some i => modifyIdx (fun s => { s with paragraphs := bodyParagraphs content }) i shapes
  | none => shapes

/-- Lines 38-60 of add_content_slide: scan the shapes of the slide for the
placeholders, then apply the title mutation followed by the body
mutation. -/
def populate (title content : String) (slide : Slide) : Slide :=
  { slide with
    shapes := setBodyStage content slide.shapes (setTitleStage title slide.shapes slide.shapes) }

/-- Model of add_content_slide (lines 35-61): duplicate the base slide,
which appends the new slide to the presentation, then populate its
placeholders. -/
def add_content_slide (b : Builder) (title content : String) : Builder :=
  let newSlide := (duplicate_base_slide b.baseSlide).1
  { b with slides := b.slides ++ [populate title content newSlide] }

/-- Model of one slide descriptor of the JSON outline: the title and
content entries may each be absent. -/
structure SlideData where
  title : Option String
  content : Option String
deriving DecidableEq

/-- Model of the content outline: the JSON object is a mapping iterated in
insertion order, modelled as an association list. -/
abbrev Outline := List (String × List SlideData)

/-- Body of the inner loop of build_from_content (lines 68-72): Python
evaluates both subscripts before the call, so a descriptor missing either
key raises KeyError before any slide is created; the handler logs and
continues, leaving the builder unchanged. -/
def processDescriptor (b : Builder) (d : SlideData) : Builder :=
  match d.title, d.content with
  | some t, some c => add_content_slide b t c
  | _, _ => b

/-- Model of build_from_content (lines 63-73): for each section in mapping
order, add a section-header slide (title is the section name, content the
empty string), then process the descriptors of the section in list
order. -/
def build_from_content (b : Builder) (content_dict : Outline) : Builder :=
  content_dict.foldl
    (fun acc sec => sec.2.foldl processDescriptor (add_content_slide acc sec.1 ""))
    b

/-- Model of the HTTP response of the /generate-ppt handler: the status
code, the JSON error body when one is returned, and the generated document
when one is sent. -/
structure GenResponse where
  status : Nat
  error : Option String
  attachment : Option Builder
deriving DecidableEq

/-- Model of the generate_ppt handler (lines 80-113).  The template
argument is the parsed template when the file part is present; the content
argument is some (some outline) for a present part holding valid JSON,
some none for a present part whose JSON parse fails, and none for a
missing part.  A missing part returns 400 before anything else runs; a
JSON parse failure returns 400 before the builder is constructed; an empty
template raises an unhandled IndexError (a 500, no JSON error body). -/
def generate_ppt (template : Option (List Slide)) (content : Option (Option Outline)) :
    GenResponse :=
  match template, content with
  | none, _ =>
      { status := 400, error := some "Both template and content files are required.",
        attachment := none }
  | some _, none =>
      { status := 400, error := some "Both template and content files are required.",
        attachment := none }
  | some tpl, some parsed =>
    match parsed with
    | none =>
        { status := 400, error := some "Invalid JSON content file.", attachment := none }
    | some outline =>
      match initBuilder tpl with
      | none => { status := 500, error := none, attachment := none }
      | some b =>
          { status := 200, error := none,
            attachment := some (build_from_content b outline) }

/-- Slide emitted for a section header by build_from_content (line 67):
the title is the section name and the content is the empty string. -/
def headerSlide (base : Slide) (name : String) : Slide :=
  populate name "" (duplicate_base_slide base).1

/-- Slide emitted for one descriptor by build_from_content (line 70): a
slide when both keys are present, nothing when either is missing. -/
def descSlide (base : Slide) (d : SlideData) : Option Slide :=
  match d.title, d.content with
  | some t, some c => some (populate t c (duplicate_base_slide base).1)
  | _, _ => none

/-- Slides emitted for one whole section of the outline: the header slide
followed by one slide per descriptor carrying both keys. -/
def sectionSlides (base : Slide) (sec : String × List SlideData) : List Slide :=
  headerSlide base sec.1 :: sec.2.filterMap (descSlide base)

/-- Concrete title placeholder used for witnesses: a non-group placeholder
shape with placeholder_format.idx 0 and empty text frame. -/
def titlePh : Shape :=
  { isGroup := false, isPlaceholder := true, phIdx := 0, text := "", paragraphs := [] }

/-- Concrete body placeholder used for witnesses: a non-group placeholder
shape with placeholder_format.idx 1 and empty text frame. -/
def bodyPh : Shape :=
  { isGroup := false, isPlaceholder := true, phIdx := 1, text := "", paragraphs := [] }

/-- Concrete slide holding only a title placeholder. -/
def titleSlide : Slide :=
  { layout := { id := 0, placeholders := [titlePh] }, shapes := [titlePh] }

/-- Concrete slide holding only a body placeholder. -/
def bodySlide : Slide :=
  { layout := { id := 1, placeholders := [bodyPh] }, shapes := [bodyPh] }

/-- Concrete title of length exactly 200. -/
def t200 : String := String.mk (List.replicate 200 'a')

/-- Concrete base slide with no shapes, used for witnesses. -/
def plainBase : Slide := { layout := { id := 2, placeholders := [] }, shapes := [] }

/-- Concrete builder over plainBase whose presentation holds exactly the
base slide, used for witnesses. -/
def plainBuilder : Builder := { baseSlide := plainBase, slides := [plainBase] }

theorem truncated_title_of_lt {title : String} (h : title.length < 200) :
    truncated_title title = title := by
  simp [truncated_title, h]

theorem truncated_title_of_ge {title : String} (h : 200 ≤ title.length) :
    truncated_title title = String.mk (title.data.take 197) ++ "..." := by
  simp [truncated_title, Nat.not_lt.mpr h]

theorem truncated_title_length_le (title : String) :
    (truncated_title title).length ≤ 200 := by
  rw [truncated_title]
  split
  · omega
  · rw [String.length_append]
    have h1 : (String.mk (title.data.take 197)).length ≤ 197 := by
      show (title.data.take 197).length ≤ 197
      rw [List.length_take]
      exact Nat.min_le_left _ _
    have h2 : ("..." : String).length = 3 := rfl
    omega

/-- C3: a POST to /generate-ppt missing the template file part or the
content file part returns HTTP 400 with the JSON error message, with no
document attached and the builder never constructed. -/
theorem generate_ppt_missing_file (template : Option (List Slide))
    (content : Option (Option Outline)) (h : template = none ∨ content = none) :
    generate_ppt template content =
      { status := 400, error := some "Both template and content files are required.",
        attachment := none } := by
  rcases h with h | h
  · subst h; rfl
  · subst h; cases template <;> rfl

theorem generate_ppt_missing_file_witness :
    generate_ppt none none =
      { status := 400, error := some "Both template and content files are required.",
        attachment := none } :=
  generate_ppt_missing_file none none (Or.inl rfl)

/-- C4: a POST to /generate-ppt whose content file part is present but
does not parse as JSON returns HTTP 400 with the JSON error message, with
no document attached and the builder never constructed. -/
theorem generate_ppt_invalid_json (tpl : List Slide) :
    generate_ppt (some tpl) (some none) =
      { status := 400, error := some "Invalid JSON content file.", attachment := none } :=
  rfl

theorem copyLoop_eq (shapes : List Shape) :
    copyLoop shapes =
      (shapes.filter (fun s => !s.isGroup && !s.isPlaceholder),
       (shapes.filter (fun s => s.isGroup)).map fun _ => "[WARN] Skipping grouped shape") := by
  induction shapes with
  | nil => rfl
  | cons s rest ih =>
    by_cases hg : s.isGroup = true
    · simp [copyLoop, hg, List.filter_cons, ih]
    · by_cases hp : s.isPlaceholder = true
      · simp [copyLoop, hg, hp, List.filter_cons, ih]
      · simp [copyLoop, hg, hp, List.filter_cons, ih]

/-- C8: duplicate_base_slide creates the new slide on the layout of the
base slide, copies onto it (after the layout placeholders, in order)
exactly the shapes of the base slide that are neither group shapes nor
placeholders, and logs one warning per group shape of the base slide. -/
theorem duplicate_base_slide_spec (base : Slide) :
    (duplicate_base_slide base).1.layout = base.layout ∧
    (duplicate_base_slide base).1.shapes =
      base.layout.placeholders ++
        base.shapes.filter (fun s => !s.isGroup && !s.isPlaceholder) ∧
    (duplicate_base_slide base).2 =
      (base.shapes.filter (fun s => s.isGroup)).map
        fun _ => "[WARN] Skipping grouped shape" := by
  refine ⟨rfl, ?_, ?_⟩ <;> simp [duplicate_base_slide, copyLoop_eq]

/-- C10: a descriptor missing the title key or the content key is skipped
atomically: the builder state is unchanged, so no slide is appended, no
slide is modified, and the slide count does not change. -/
theorem descriptor_skip_atomic (b : Builder) (d : SlideData)
    (h : d.title = none ∨ d.content = none) :
    processDescriptor b d = b ∧ (processDescriptor b d).slides = b.slides := by
  obtain ⟨dt, dc⟩ := d
  have hb : processDescriptor b ⟨dt, dc⟩ = b := by
    rcases h with h | h
    · have h' : dt = none := h
      subst h'
      cases dc <;> rfl
    · have h' : dc = none := h
      subst h'
      cases dt <;> rfl
  exact ⟨hb, by rw [hb]⟩

theorem descriptor_skip_atomic_witness :
    processDescriptor plainBuilder ⟨none, some "x"⟩ = plainBuilder ∧
      (processDescriptor plainBuilder ⟨none, some "x"⟩).slides = plainBuilder.slides :=
  descriptor_skip_atomic plainBuilder ⟨none, some "x"⟩ (Or.inl rfl)

theorem length_modifyIdx (f : Shape → Shape) (i : Nat) (l : List Shape) :
    (modifyIdx f i l).length = l.length := by
  induction l generalizing i with
  | nil => cases i <;> rfl
  | cons s rest ih =>
    cases i with
    | zero => rfl
    | succ n => simpa [modifyIdx] using ih n

theorem get?_modifyIdx_self (f : Shape → Shape) (i : Nat) (l : List Shape) :
    (modifyIdx f i l).get? i = (l.get? i).map f := by
  induction l generalizing i with
  | nil => cases i <;> rfl
  | cons s rest ih =>
    cases i with
    | zero => rfl
    | succ n => simpa [modifyIdx] using ih n

theorem get?_modifyIdx_ne (f : Shape → Shape) {i j : Nat} (l : List Shape) (h : i ≠ j) :
    (modifyIdx f i l).get? j = l.get? j := by
  induction l generalizing i j with
  | nil => cases i <;> rfl
  | cons s rest ih =>
    cases i with
    | zero =>
      cases j with
      | zero => exact absurd rfl h
      | succ m => rfl
    | succ n =>
      cases j with
      | zero => rfl
      | succ m =>
        simpa [modifyIdx] using ih (fun hh => h (congrArg Nat.succ hh))

theorem lastIdxWhere_get (p : Shape → Bool) (l : List Shape) (i : Nat)
    (h : lastIdxWhere p l = some i) : ∃ s, l.get? i = some s ∧ p s = true := by
  induction l generalizing i with
  | nil => simp [lastIdxWhere] at h
  | cons s rest ih =>
    rw [lastIdxWhere] at h
    cases hr : lastIdxWhere p rest with
    | some n =>
      rw [hr] at h
      injection h with h
      subst h
      obtain ⟨t, ht, hp⟩ := ih n hr
      exact ⟨t, by simpa using ht, hp⟩
    | none =>
      rw [hr] at h
      by_cases hp : p s = true
      · rw [if_pos hp] at h
        injection h with h
        subst h
        exact ⟨s, rfl, hp⟩
      · rw [if_neg hp] at h
        exact absurd h (by simp)

theorem setTitleStage_some {shapes0 : List Shape} {i : Nat} (title : String)
    (shapes : List Shape) (h : lastIdxWhere isTitlePh shapes0 = some i) :
    setTitleStage title shapes0 shapes =
      modifyIdx (fun s => { s with text := truncated_title title }) i shapes := by
  simp [setTitleStage, h]

theorem setTitleStage_none {shapes0 : List Shape} (title : String)
    (shapes : List Shape) (h : lastIdxWhere isTitlePh shapes0 = none) :
    setTitleStage title shapes0 shapes = shapes := by
  simp [setTitleStage, h]

theorem setBodyStage_some {shapes0 : List Shape} {i : Nat} (content : String)
    (shapes : List Shape) (h : lastIdxWhere isContentPh shapes0 = some i) :
    setBodyStage content shapes0 shapes =
      modifyIdx (fun s => { s with paragraphs := bodyParagraphs content }) i shapes := by
  simp [setBodyStage, h]

theorem setBodyStage_none {shapes0 : List Shape} (content : String)
    (shapes : List Shape) (h : lastIdxWhere isContentPh shapes0 = none) :
    setBodyStage content shapes0 shapes = shapes := by
  simp [setBodyStage, h]

theorem get?_setBodyStage_text (content : String) (shapes0 l : List Shape) (i : Nat) :
    ((setBodyStage content shapes0 l).get? i).map Shape.text = (l.get? i).map Shape.text := by
  cases hc : lastIdxWhere isContentPh shapes0 with
  | none => rw [setBodyStage_none content l hc]
  | some k =>
    rw [setBodyStage_some content l hc]
    rcases eq_or_ne k i with rfl | hki
    · rw [get?_modifyIdx_self]
      cases l.get? k <;> rfl
    · rw [get?_modifyIdx_ne _ _ hki]

theorem get?_setTitleStage_isSome (title : String) (shapes0 l : List Shape) (i : Nat)
    (h : (l.get? i).isSome) : ((setTitleStage title shapes0 l).get? i).isSome := by
  cases ht : lastIdxWhere isTitlePh shapes0 with
  | none => rw [setTitleStage_none title l ht]; exact h
  | some k =>
    rw [setTitleStage_some title l ht]
    rcases eq_or_ne k i with rfl | hki
    · obtain ⟨s, hs⟩ := Option.isSome_iff_exists.mp h
      rw [get?_modifyIdx_self, hs]
      rfl
    · rw [get?_modifyIdx_ne _ _ hki]; exact h

theorem populate_title_text (slide : Slide) (title content : String) (i : Nat)
    (h : lastIdxWhere isTitlePh slide.shapes = some i) :
    ∃ s, (populate title content slide).shapes.get? i = some s ∧
      s.text = truncated_title title := by
  obtain ⟨s0, hs0, _⟩ := lastIdxWhere_get _ _ _ h
  have h1 : (setTitleStage title slide.shapes slide.shapes).get? i =
      some { s0 with text := truncated_title title } := by
    rw [setTitleStage_some title slide.shapes h, get?_modifyIdx_self, hs0]
    rfl
  have h2 : ((populate title content slide).shapes.get? i).map Shape.text =
      some (truncated_title title) := by
    show ((setBodyStage content slide.shapes
      (setTitleStage title slide.shapes slide.shapes)).get? i).map Shape.text = _
    rw [get?_setBodyStage_text, h1]
    rfl
  cases hg : (populate title content slide).shapes.get? i with
  | none => rw [hg] at h2; exact absurd h2 (by simp)
  | some s =>
    rw [hg] at h2
    exact ⟨s, rfl, by injection h2⟩

theorem populate_body_paragraphs (slide : Slide) (title content : String) (i : Nat)
    (h : lastIdxWhere isContentPh slide.shapes = some i) :
    ∃ s, (populate title content slide).shapes.get? i = some s ∧
      s.paragraphs = bodyParagraphs content := by
  obtain ⟨s0, hs0, _⟩ := lastIdxWhere_get _ _ _ h
  have h1 : ((setTitleStage title slide.shapes slide.shapes).get? i).isSome :=
    get?_setTitleStage_isSome title slide.shapes slide.shapes i (by rw [hs0]; rfl)
  obtain ⟨s1, hs1⟩ := Option.isSome_iff_exists.mp h1
  refine ⟨{ s1 with paragraphs := bodyParagraphs content }, ?_, rfl⟩
  show (setBodyStage content slide.shapes
    (setTitleStage title slide.shapes slide.shapes)).get? i = _
  rw [setBodyStage_some content _ h, get?_modifyIdx_self, hs1]
  rfl

set_option maxRecDepth 8000 in
/-- C2 counterexample: the original claim says a title of length at most
200 is set on the title placeholder unchanged.  On a slide whose only
shape is the title placeholder, a title of length exactly 200 is not set
unchanged: the handler truncates it. -/
theorem title_length_200_not_unchanged :
    t200.length ≤ 200 ∧
      (populate t200 "" titleSlide).shapes.map Shape.text ≠ [t200] := by
  constructor
  · show (List.replicate 200 'a').length ≤ 200
    simp
  · intro hmap
    have h1 : (populate t200 "" titleSlide).shapes.map Shape.text =
        [truncated_title t200] := rfl
    rw [h1] at hmap
    have h2 : truncated_title t200 = t200 := by injection hmap
    have h3 : (truncated_title t200).data.get? 197 = t200.data.get? 197 := by rw [h2]
    rw [show t200.data.get? 197 = some 'a' from rfl] at h3
    rw [show (truncated_title t200).data.get? 197 = some ('.' : Char) from rfl] at h3
    exact absurd h3 (by decide)

/-- C2 (amended): on every slide carrying a title placeholder, the text
set on the title placeholder by add_content_slide is the title unchanged
when the title is shorter than 200 characters, and the first 197
characters followed by an ellipsis when the title has 200 or more
characters (the source guard is a strict less-than at line 48, so length
exactly 200 is already truncated). -/
theorem add_content_slide_title_truncation (slide : Slide) (title content : String)
    (i : Nat) (h : lastIdxWhere isTitlePh slide.shapes = some i) :
    ∃ s, (populate title content slide).shapes.get? i = some s ∧
      (title.length < 200 → s.text = title) ∧
      (200 ≤ title.length → s.text = String.mk (title.data.take 197) ++ "...") := by
  obtain ⟨s, hg, htext⟩ := populate_title_text slide title content i h
  refine ⟨s, hg, ?_, ?_⟩
  · intro hlt
    rw [htext, truncated_title_of_lt hlt]
  · intro hge
    rw [htext, truncated_title_of_ge hge]

theorem add_content_slide_title_truncation_witness :
    ∃ s, (populate "Intro" "" titleSlide).shapes.get? 0 = some s ∧
      ("Intro".length < 200 → s.text = "Intro") ∧
      (200 ≤ "Intro".length → s.text = String.mk ("Intro".data.take 197) ++ "...") :=
  add_content_slide_title_truncation titleSlide "Intro" "" 0 rfl

/-- C9: the truncation guard fires whenever the title length is at least
200, in particular at length exactly 200, and as a consequence the text
set on the title placeholder never exceeds 200 characters. -/
theorem title_text_never_exceeds_200 (slide : Slide) (title content : String)
    (i : Nat) (h : lastIdxWhere isTitlePh slide.shapes = some i) :
    ∃ s, (populate title content slide).shapes.get? i = some s ∧
      (title.length = 200 → s.text = String.mk (title.data.take 197) ++ "...") ∧
      s.text.length ≤ 200 := by
  obtain ⟨s, hg, htext⟩ := populate_title_text slide title content i h
  refine ⟨s, hg, ?_, ?_⟩
  · intro h200
    rw [htext, truncated_title_of_ge (le_of_eq h200.symm)]
  · rw [htext]
    exact truncated_title_length_le title

set_option maxRecDepth 8000 in
theorem title_text_never_exceeds_200_witness :
    ∃ s, (populate t200 "" titleSlide).shapes.get? 0 = some s ∧
      (t200.length = 200 → s.text = String.mk (t200.data.take 197) ++ "...") ∧
      s.text.length ≤ 200 :=
  title_text_never_exceeds_200 titleSlide t200 "" 0 rfl

theorem linesOf_ne_nil (l : List Char) : linesOf l ≠ [] := by
  cases l with
  | nil => simp [linesOf]
  | cons c rest =>
    rw [linesOf]
    by_cases hc : c = '\n'
    · simp [hc]
    · rw [if_neg hc]
      cases linesOf rest <;> simp

theorem linesOf_cons_newline (t : List Char) : linesOf ('\n' :: t) = [] :: linesOf t := by
  simp [linesOf]

theorem linesOf_cons_other {c : Char} (hc : ¬ c = '\n') (t : List Char) (hd : List Char)
    (tl : List (List Char)) (hr : linesOf t = hd :: tl) :
    linesOf (c :: t) = (c :: hd) :: tl := by
  rw [linesOf, if_neg hc, hr]

theorem pyStripL_cons_ws {c : Char} (h : isPySpace c = true) (l : List Char) :
    pyStripL (c :: l) = pyStripL l := by
  rw [pyStripL, pyStripL, List.dropWhile_cons_of_pos h]

theorem cleanPar_cons_ws {c : Char} (h : isPySpace c = true) (l : List Char) :
    cleanPar (c :: l) = cleanPar l := by
  simp only [cleanPar, pyStripL_cons_ws h]

theorem stripRight_append_ws {x : Char} (h : isPySpace x = true) (m : List Char) :
    stripRight (m ++ [x]) = stripRight m := by
  rw [stripRight, stripRight, List.reverse_append]
  simp [List.dropWhile_cons_of_pos h]

theorem stripRight_append_not_ws {x : Char} (h : ¬ isPySpace x = true) (m : List Char) :
    stripRight (m ++ [x]) = m ++ [x] := by
  rw [stripRight, List.reverse_append]
  simp [List.dropWhile_cons_of_neg h]

theorem pyStripL_append_ws {x : Char} (h : isPySpace x = true) (l : List Char) :
    pyStripL (l ++ [x]) = pyStripL l := by
  induction l with
  | nil =>
    show pyStripL [x] = pyStripL []
    rw [pyStripL_cons_ws h]
  | cons c t ih =>
    by_cases hc : isPySpace c = true
    · rw [show (c :: t) ++ [x] = c :: (t ++ [x]) from rfl,
        pyStripL_cons_ws hc, pyStripL_cons_ws hc, ih]
    · rw [List.cons_append]
      rw [pyStripL, List.dropWhile_cons_of_neg hc]
      rw [pyStripL, List.dropWhile_cons_of_neg hc]
      exact stripRight_append_ws h (c :: t)

theorem cleanPar_append_ws {x : Char} (h : isPySpace x = true) (l : List Char) :
    cleanPar (l ++ [x]) = cleanPar l := by
  simp only [cleanPar, pyStripL_append_ws h]

theorem getLast?_getD_irrel {α : Type} (k : α) (ks : List α) (d1 d2 : α) :
    (k :: ks).getLast?.getD d1 = (k :: ks).getLast?.getD d2 := by
  cases h : (k :: ks).getLast? with
  | none =>
    have hs : (k :: ks).getLast?.isSome := List.getLast?_isSome.mpr (by simp)
    rw [h] at hs
    exact absurd hs (by simp)
  | some a => rfl

theorem linesOf_append_newline (l : List Char) :
    linesOf (l ++ ['\n']) = linesOf l ++ [[]] := by
  induction l with
  | nil => rfl
  | cons c t ih =>
    by_cases hc : c = '\n'
    · subst hc
      show linesOf ('\n' :: (t ++ ['\n'])) = _
      rw [linesOf, if_pos rfl, ih]
      rw [show linesOf ('\n' :: t) = [] :: linesOf t from by rw [linesOf, if_pos rfl]]
      rfl
    · show linesOf (c :: (t ++ ['\n'])) = _
      rw [linesOf, if_neg hc, ih]
      cases hr : linesOf t with
      | nil => exact absurd hr (linesOf_ne_nil t)
      | cons hd tl =>
        rw [show linesOf (c :: t) = (c :: hd) :: tl from by
          rw [linesOf, if_neg hc, hr]]
        simp

theorem linesOf_append_other {x : Char} (hx : ¬ x = '\n') (l : List Char) :
    linesOf (l ++ [x]) =
      (linesOf l).dropLast ++ [(linesOf l).getLastD [] ++ [x]] := by
  induction l with
  | nil => simp [linesOf, hx]
  | cons c t ih =>
    rw [List.cons_append]
    by_cases hc : c = '\n'
    · subst hc
      rw [linesOf_cons_newline, ih, linesOf_cons_newline]
      cases hr : linesOf t with
      | nil => exact absurd hr (linesOf_ne_nil t)
      | cons hd tl => simp [hr, List.getLastD_cons, List.dropLast_cons₂]
    · cases hr : linesOf t with
      | nil => exact absurd hr (linesOf_ne_nil t)
      | cons hd tl =>
        cases tl with
        | nil =>
          have h1 : linesOf (t ++ [x]) = [hd ++ [x]] := by
            rw [ih, hr]
            rfl
          rw [linesOf_cons_other hc (t ++ [x]) (hd ++ [x]) [] h1,
              linesOf_cons_other hc t hd [] hr]
          rfl
        | cons k ks =>
          have h1 : linesOf (t ++ [x]) =
              hd :: ((k :: ks).dropLast ++ [(k :: ks).getLastD hd ++ [x]]) := by
            rw [ih, hr]
            simp only [List.dropLast_cons₂, List.getLastD_cons, List.cons_append]
          rw [linesOf_cons_other hc (t ++ [x]) _ _ h1,
              linesOf_cons_other hc t hd (k :: ks) hr]
          simp only [List.dropLast_cons₂, List.getLastD_cons, List.cons_append]

theorem filterMap_cleanPar_append_ws {x : Char} (h : isPySpace x = true) (l : List Char) :
    (linesOf (l ++ [x])).filterMap cleanPar = (linesOf l).filterMap cleanPar := by
  by_cases hx : x = '\n'
  · subst hx
    rw [linesOf_append_newline, List.filterMap_append]
    rw [show List.filterMap cleanPar [[]] = [] from rfl, List.append_nil]
  · rw [linesOf_append_other hx]
    cases hr : linesOf l with
    | nil => exact absurd hr (linesOf_ne_nil l)
    | cons hd tl =>
      have hlast : (hd :: tl).getLastD [] = (hd :: tl).getLast (by simp) := by
        rw [List.getLastD_eq_getLast?, List.getLast?_eq_getLast (hd :: tl) (by simp)]
        rfl
      conv_rhs => rw [← List.dropLast_concat_getLast (l := hd :: tl) (by simp)]
      rw [List.filterMap_append, List.filterMap_append, hlast]
      rw [List.filterMap_cons, List.filterMap_cons, cleanPar_append_ws h]

theorem filterMap_cleanPar_dropWhile (l : List Char) :
    (linesOf (l.dropWhile isPySpace)).filterMap cleanPar =
      (linesOf l).filterMap cleanPar := by
  induction l with
  | nil => rfl
  | cons c t ih =>
    by_cases hc : isPySpace c = true
    · rw [List.dropWhile_cons_of_pos hc, ih]
      by_cases hcn : c = '\n'
      · subst hcn
        rw [show linesOf ('\n' :: t) = [] :: linesOf t from by rw [linesOf, if_pos rfl]]
        rw [List.filterMap_cons]
        rfl
      · cases hr : linesOf t with
        | nil => exact absurd hr (linesOf_ne_nil t)
        | cons hd tl =>
          rw [show linesOf (c :: t) = (c :: hd) :: tl from by
            rw [linesOf, if_neg hcn, hr]]
          rw [List.filterMap_cons, List.filterMap_cons, cleanPar_cons_ws hc]
    · rw [List.dropWhile_cons_of_neg hc]

theorem filterMap_cleanPar_stripRight (l : List Char) :
    (linesOf (stripRight l)).filterMap cleanPar = (linesOf l).filterMap cleanPar := by
  induction l using List.reverseRecOn with
  | nil => rfl
  | append_singleton xs x ih =>
    by_cases hx : isPySpace x = true
    · rw [stripRight_append_ws hx, ih, filterMap_cleanPar_append_ws hx]
    · rw [stripRight_append_not_ws hx]

theorem bodyParagraphs_eq_spec (content : String) :
    bodyParagraphs content = bodyParagraphsSpec content := by
  rw [bodyParagraphs, bodyParagraphsSpec, pyStripL]
  rw [filterMap_cleanPar_stripRight, filterMap_cleanPar_dropWhile]

/-- C5: on every slide carrying a content placeholder, add_content_slide
replaces the body text frame with exactly one paragraph per non-blank line
of the content (lines of only whitespace are omitted), each appended
paragraph having font size 18 points and outline level 0. -/
theorem add_content_slide_body (slide : Slide) (title content : String) (i : Nat)
    (h : lastIdxWhere isContentPh slide.shapes = some i) :
    ∃ s, (populate title content slide).shapes.get? i = some s ∧
      s.paragraphs = bodyParagraphsSpec content ∧
      ∀ p ∈ s.paragraphs, p.fontSizePt = 18 ∧ p.level = 0 := by
  obtain ⟨s, hg, hpar⟩ := populate_body_paragraphs slide title content i h
  refine ⟨s, hg, by rw [hpar, bodyParagraphs_eq_spec], ?_⟩
  intro p hp
  rw [hpar] at hp
  obtain ⟨ln, _, hcl⟩ := List.mem_filterMap.mp hp
  rw [cleanPar] at hcl
  split at hcl
  · exact absurd hcl (by simp)
  · cases hcl
    exact ⟨rfl, rfl⟩

theorem add_content_slide_body_witness :
    ∃ s, (populate "T" "a\n \nb" bodySlide).shapes.get? 0 = some s ∧
      s.paragraphs = bodyParagraphsSpec "a\n \nb" ∧
      ∀ p ∈ s.paragraphs, p.fontSizePt = 18 ∧ p.level = 0 :=
  add_content_slide_body bodySlide "T" "a\n \nb" 0 rfl

theorem add_content_slide_eq (b : Builder) (t c : String) :
    add_content_slide b t c =
      { baseSlide := b.baseSlide,
        slides := b.slides ++ [populate t c (duplicate_base_slide b.baseSlide).1] } := rfl

theorem descSlide_some {d : SlideData} {t c : String} (ht : d.title = some t)
    (hc : d.content = some c) (base : Slide) :
    descSlide base d = some (populate t c (duplicate_base_slide base).1) := by
  obtain ⟨dt, dc⟩ := d
  have ht' : dt = some t := ht
  have hc' : dc = some c := hc
  subst ht'
  subst hc'
  rfl

theorem descSlide_none (base : Slide) (d : SlideData)
    (h : d.title = none ∨ d.content = none) : descSlide base d = none := by
  obtain ⟨dt, dc⟩ := d
  rcases h with h | h
  · have h' : dt = none := h
    subst h'
    cases dc <;> rfl
  · have h' : dc = none := h
    subst h'
    cases dt <;> rfl

theorem foldl_processDescriptor (ds : List SlideData) (b : Builder) :
    ds.foldl processDescriptor b =
      { baseSlide := b.baseSlide,
        slides := b.slides ++ ds.filterMap (descSlide b.baseSlide) } := by
  induction ds generalizing b with
  | nil => simp
  | cons d rest ih =>
    rw [List.foldl_cons]
    obtain ⟨dt, dc⟩ := d
    cases dt with
    | none =>
      rw [show processDescriptor b ⟨none, dc⟩ = b from by cases dc <;> rfl, ih,
        List.filterMap_cons,
        show descSlide b.baseSlide ⟨none, dc⟩ = none from by cases dc <;> rfl]
    | some t =>
      cases dc with
      | none =>
        rw [show processDescriptor b ⟨some t, none⟩ = b from rfl, ih,
          List.filterMap_cons,
          show descSlide b.baseSlide ⟨some t, none⟩ = none from rfl]
      | some c =>
        rw [show processDescriptor b ⟨some t, some c⟩ = add_content_slide b t c from rfl,
          ih, List.filterMap_cons,
          show descSlide b.baseSlide ⟨some t, some c⟩ =
            some (populate t c (duplicate_base_slide b.baseSlide).1) from rfl,
          add_content_slide_eq]
        simp

theorem build_from_content_slides (outline : Outline) (b : Builder) :
    build_from_content b outline =
      { baseSlide := b.baseSlide,
        slides := b.slides ++ (outline.map (sectionSlides b.baseSlide)).flatten } := by
  induction outline generalizing b with
  | nil => simp [build_from_content]
  | cons sec rest ih =>
    have hstep : build_from_content b (sec :: rest) =
        build_from_content (sec.2.foldl processDescriptor (add_content_slide b sec.1 "")) rest :=
      rfl
    rw [hstep, ih, foldl_processDescriptor, add_content_slide_eq]
    simp [sectionSlides, headerSlide]

theorem filterMap_descSlide_length (base : Slide) (ds : List SlideData)
    (h : ∀ d ∈ ds, d.title.isSome ∧ d.content.isSome) :
    (ds.filterMap (descSlide base)).length = ds.length := by
  induction ds with
  | nil => rfl
  | cons d rest ih =>
    obtain ⟨h1, h2⟩ := h d (List.mem_cons_self d rest)
    obtain ⟨t, ht⟩ := Option.isSome_iff_exists.mp h1
    obtain ⟨c, hcv⟩ := Option.isSome_iff_exists.mp h2
    rw [List.filterMap_cons, descSlide_some ht hcv base]
    simp only [List.length_cons]
    rw [ih (fun x hx => h x (List.mem_cons_of_mem d hx))]

theorem filterMap_descSlide_complete (base : Slide) (ds : List SlideData)
    (h : ∀ d ∈ ds, d.title.isSome ∧ d.content.isSome) :
    ds.filterMap (descSlide base) =
      ds.map (fun d =>
        populate (d.title.getD "") (d.content.getD "") (duplicate_base_slide base).1) := by
  induction ds with
  | nil => rfl
  | cons d rest ih =>
    obtain ⟨h1, h2⟩ := h d (List.mem_cons_self d rest)
    obtain ⟨t, ht⟩ := Option.isSome_iff_exists.mp h1
    obtain ⟨c, hcv⟩ := Option.isSome_iff_exists.mp h2
    simp only [List.filterMap_cons, descSlide_some ht hcv base, List.map_cons, ht, hcv,
      Option.getD_some]
    exact congrArg (List.cons _) (ih (fun x hx => h x (List.mem_cons_of_mem d hx)))

/-- C1: starting from a template whose presentation is exactly the base
slide, building from an outline whose descriptors all carry both keys
yields one slide for the base plus, per section, one header slide plus one
slide per descriptor. -/
theorem build_from_content_slide_count (base : Slide) (b : Builder) (outline : Outline)
    (hinit : initBuilder [base] = some b)
    (hcomplete : ∀ sec ∈ outline, ∀ d ∈ sec.2, d.title.isSome ∧ d.content.isSome) :
    (build_from_content b outline).slides.length =
      1 + (outline.map (fun sec => 1 + sec.2.length)).sum := by
  have hb : b = { baseSlide := base, slides := [base] } := by
    have h0 : some ({ baseSlide := base, slides := [base] } : Builder) = some b := hinit
    exact (Option.some.inj h0).symm
  subst hb
  rw [build_from_content_slides]
  show ([base] ++ (outline.map (sectionSlides base)).flatten).length = _
  rw [List.length_append, List.length_flatten, List.map_map]
  have hmap : outline.map (List.length ∘ sectionSlides base) =
      outline.map (fun sec => 1 + sec.2.length) := by
    apply List.map_congr_left
    intro sec hsec
    show (sectionSlides base sec).length = 1 + sec.2.length
    rw [sectionSlides, List.length_cons,
      filterMap_descSlide_length base sec.2 (hcomplete sec hsec)]
    omega
  rw [hmap]
  simp

theorem build_from_content_slide_count_witness :
    (build_from_content plainBuilder [("Intro", [⟨some "t", some "c"⟩])]).slides.length =
      1 + ([("Intro", [(⟨some "t", some "c"⟩ : SlideData)])].map
        (fun sec => 1 + sec.2.length)).sum :=
  build_from_content_slide_count plainBase plainBuilder
    [("Intro", [⟨some "t", some "c"⟩])] rfl (by decide)

/-- C6: build_from_content walks the outline in mapping order and emits,
per section, first one header slide whose title is the section name and
whose content is the empty string, then one slide per descriptor in list
order (all descriptors assumed well formed). -/
theorem build_from_content_order (b : Builder) (outline : Outline)
    (hcomplete : ∀ sec ∈ outline, ∀ d ∈ sec.2, d.title.isSome ∧ d.content.isSome) :
    build_from_content b outline =
      { baseSlide := b.baseSlide,
        slides := b.slides ++
          (outline.map (fun sec =>
            headerSlide b.baseSlide sec.1 ::
              sec.2.map (fun d =>
                populate (d.title.getD "") (d.content.getD "")
                  (duplicate_base_slide b.baseSlide).1))).flatten } := by
  rw [build_from_content_slides]
  have hmap : outline.map (sectionSlides b.baseSlide) =
      outline.map (fun sec =>
        headerSlide b.baseSlide sec.1 ::
          sec.2.map (fun d =>
            populate (d.title.getD "") (d.content.getD "")
              (duplicate_base_slide b.baseSlide).1)) := by
    apply List.map_congr_left
    intro sec hsec
    rw [sectionSlides]
    exact congrArg (List.cons _) (filterMap_descSlide_complete _ _ (hcomplete sec hsec))
  rw [hmap]

theorem build_from_content_order_witness :
    build_from_content plainBuilder [("Sec", [⟨some "t", some "c"⟩])] =
      { baseSlide := plainBuilder.baseSlide,
        slides := plainBuilder.slides ++
          ([("Sec", [(⟨some "t", some "c"⟩ : SlideData)])].map (fun sec =>
            headerSlide plainBuilder.baseSlide sec.1 ::
              sec.2.map (fun d =>
                populate (d.title.getD "") (d.content.getD "")
                  (duplicate_base_slide plainBuilder.baseSlide).1))).flatten } :=
  build_from_content_order plainBuilder [("Sec", [⟨some "t", some "c"⟩])] (by decide)

/-- C7: one descriptor missing the title key or the content key is
skipped, while the header slide of its section and every other descriptor
of every section are still processed: the build result equals the build of
the outline with the bad descriptor removed, so generation never aborts. -/
theorem build_from_content_skips_bad_descriptor (b : Builder) (pre post : Outline)
    (name : String) (ds1 ds2 : List SlideData) (d : SlideData)
    (h : d.title = none ∨ d.content = none) :
    build_from_content b (pre ++ (name, ds1 ++ d :: ds2) :: post) =
      build_from_content b (pre ++ (name, ds1 ++ ds2) :: post) := by
  rw [build_from_content_slides, build_from_content_slides]
  have hsec : sectionSlides b.baseSlide (name, ds1 ++ d :: ds2) =
      sectionSlides b.baseSlide (name, ds1 ++ ds2) := by
    rw [sectionSlides, sectionSlides]
    show _ :: (ds1 ++ d :: ds2).filterMap _ = _
    rw [List.filterMap_append, List.filterMap_append, List.filterMap_cons,
      descSlide_none b.baseSlide d h]
  rw [List.map_append, List.map_append, List.map_cons, List.map_cons, hsec]

theorem build_from_content_skips_bad_descriptor_witness :
    build_from_content plainBuilder
        ([] ++ ("S", [] ++ (⟨none, some "c"⟩ : SlideData) :: []) :: []) =
      build_from_content plainBuilder ([] ++ ("S", ([] : List SlideData) ++ []) :: []) :=
  build_from_content_skips_bad_descriptor plainBuilder [] [] "S" [] []
    ⟨none, some "c"⟩ (Or.inl rfl)

end PptGen
